import Mathlib

/-!
Verification of the Citation Graph Engine (arxiv-citation-server).

Shallow embedding of the core data model and algorithms from
`src/arxiv_citation_server/core/{models,analysis,graph,service,client}.py`.
Python floats are modelled as exact rationals (all scores produced by the
code are ratios of small integers and fixed decimal literals), machine
dictionaries as insertion-ordered association lists, and Python sets as
`Finset`s; where the code iterates over a set (whose order CPython leaves
unspecified) the embedding fixes a canonical order and the theorems below
only use order-insensitive consequences of such iterations.
-/

namespace CGE

/-- Models `PaperInfo` (core/models.py), restricted to the fields read by the
graph builder and the analysers under verification. -/
structure Paper where
  paper_id : String
  title : String := "Unknown"
  year : Option Int := none
  venue : Option String := none
  citation_count : Option Nat := none
deriving Repr, DecidableEq

/-- Models `CitationGraph` (core/models.py): `papers` is the insertion-ordered
dict `paper_id -> PaperInfo`, `edges` the ordered list of
`(citing_id, cited_id)` pairs. -/
structure CitationGraph where
  root_paper_id : String
  papers : List (String × Paper) := []
  edges : List (String × String) := []
  depth : Nat := 2
  direction : String := "both"
deriving Repr, DecidableEq

/-- Keys of the `papers` dict. -/
def paperKeys (g : CitationGraph) : List String := g.papers.map Prod.fst

/-- Dict lookup `graph.papers[pid]` (first binding wins, as the builders never
re-assign an existing key). -/
def lookupPaper (g : CitationGraph) (pid : String) : Option Paper :=
  (g.papers.find? (fun kv => kv.1 = pid)).map Prod.snd

/-- Forward adjacency `cites[p] = {q : (p,q) ∈ edges}` as built by
`SimilarityAnalyzer._build_indexes` / `ComparisonAnalyzer._build_indexes`. -/
def cites (g : CitationGraph) (p : String) : Finset String :=
  ((g.edges.filter (fun e => e.1 = p)).map Prod.snd).toFinset

/-- Reverse adjacency `cited_by[p] = {q : (q,p) ∈ edges}`. -/
def cited_by (g : CitationGraph) (p : String) : Finset String :=
  ((g.edges.filter (fun e => e.2 = p)).map Prod.fst).toFinset

/-- Stable insertion used to model Python `sorted` (Timsort is stable; `le y x`
means the incoming `x` belongs after `y`, so elements with equal keys keep
their original relative order). -/
def insertBy {α : Type} (le : α → α → Bool) (x : α) : List α → List α
  | [] => [x]
  | y :: ys => if le y x then y :: insertBy le x ys else x :: y :: ys

/-- Stable sort (model of Python `sorted` under the total preorder `le`). -/
def sortBy {α : Type} (le : α → α → Bool) (l : List α) : List α :=
  l.foldl (fun acc x => insertBy le x acc) []

/-- Models `SimilarityMethod` (core/models.py). -/
inductive SimilarityMethod where
  | co_citation
  | bibliographic_coupling
  | citation_overlap
deriving Repr, DecidableEq

/-- Score part of `SimilarityAnalyzer._compute_pair_similarity`
(core/analysis.py lines 122-162).  The shared-reference / shared-citer lists
returned alongside the score feed only the explanatory fields of the result
and are not modelled. -/
def pairScore (g : CitationGraph) (a b : String) (method : SimilarityMethod) : ℚ :=
  let refs_a := cites g a
  let refs_b := cites g b
  let citers_a := cited_by g a
  let citers_b := cited_by g b
  match method with
  | .bibliographic_coupling =>
      let u := refs_a ∪ refs_b
      if u = ∅ then 0 else ((refs_a ∩ refs_b).card : ℚ) / (u.card : ℚ)
  | .co_citation =>
      let u := citers_a ∪ citers_b
      if u = ∅ then 0 else ((citers_a ∩ citers_b).card : ℚ) / (u.card : ℚ)
  | .citation_overlap =>
      let ref_union := refs_a ∪ refs_b
      let citer_union := citers_a ∪ citers_b
      let ref_score : ℚ :=
        if ref_union = ∅ then 0 else ((refs_a ∩ refs_b).card : ℚ) / (ref_union.card : ℚ)
      let citer_score : ℚ :=
        if citer_union = ∅ then 0 else ((citers_a ∩ citers_b).card : ℚ) / (citer_union.card : ℚ)
      (4/10 : ℚ) * ref_score + (6/10 : ℚ) * citer_score

/-- Descending comparison on the score component, as in
`sorted(scores.items(), key=lambda x: x[1], reverse=True)`. -/
def scoreGe (a b : String × ℚ) : Bool := decide (b.2 ≤ a.2)

/-- Models `SimilarityAnalyzer.compute_similarity` (core/analysis.py lines
62-120), returning the `(other_id, score)` pairs underlying the constructed
`PaperSimilarity` results, in result order. -/
def compute_similarity (g : CitationGraph) (paper_id : String)
    (method : SimilarityMethod) (top_k : Nat) : List (String × ℚ) :=
  if paper_id ∈ paperKeys g then
    let scored := (paperKeys g).filterMap (fun other_id =>
      if other_id = paper_id then none
      else
        let s := pairScore g paper_id other_id method
        if 0 < s then some (other_id, s) else none)
    (sortBy scoreGe scored).take top_k
  else []

/-- A "word" character in the sense of the regex `\b` boundary: letters,
digits, underscore (the titles exercised by the theorems are ASCII). -/
def wordChar (c : Char) : Bool := c.isAlpha || c.isDigit || (c = '_')

/-- Split a character list into maximal runs of word characters. -/
def wordRuns : List Char → List Char → List (List Char)
  | [], acc => if acc.isEmpty then [] else [acc.reverse]
  | c :: cs, acc =>
    if wordChar c then wordRuns cs (c :: acc)
    else if acc.isEmpty then wordRuns cs [] else acc.reverse :: wordRuns cs []

/-- Models `re.findall(r"\b[a-zA-Z]{3,}\b", title)` followed by lowercasing:
a maximal word-character run matches iff it consists solely of letters and has
length at least 3. -/
def titleTokens (title : String) : List String :=
  (wordRuns title.toList []).filterMap (fun run =>
    if 3 ≤ run.length ∧ run.all Char.isAlpha
    then some (String.mk (run.map Char.toLower)) else none)

/-- The 12-word stop set literal that `ComparisonAnalyzer._extract_common_themes`
and `_find_distinguishing_aspects` each repeat (core/analysis.py lines 812-825
and 846-859). -/
def comparisonStopWords : List String :=
  ["a", "an", "the", "of", "in", "for", "on", "with", "to", "and", "is", "are"]

/-- The 25-word stop set used by `ClusterAnalyzer._extract_key_terms`
(core/analysis.py lines 320-346). -/
def clusteringStopWords : List String :=
  ["a", "an", "the", "of", "in", "for", "on", "with", "to", "and", "is", "are",
   "by", "from", "using", "via", "based", "towards", "its", "as", "at", "be",
   "or", "this", "that"]

/-- Models `ComparisonAnalyzer._extract_common_themes`: per-title token sets
minus the 12-word stop set, intersected across all papers, truncated to 5.
CPython iterates the resulting set in unspecified order; the embedding takes
the first title's token order as canonical. -/
def extract_common_themes (papers : List Paper) : List String :=
  let word_sets := papers.map (fun p =>
    ((titleTokens p.title).filter (fun w => ¬ comparisonStopWords.contains w)).dedup)
  match word_sets with
  | [] => []
  | ws :: rest => (ws.filter (fun w => rest.all (fun s => s.contains w))).take 5

/-- Models `ComparisonAnalyzer._find_distinguishing_aspects`: words appearing
(counted with multiplicity across all titles) exactly once, per paper,
truncated to 3. -/
def find_distinguishing_aspects (papers : List Paper) : List (String × List String) :=
  let all_words := papers.flatMap (fun p =>
    (titleTokens p.title).filter (fun w => ¬ comparisonStopWords.contains w))
  papers.map (fun p =>
    let mine := ((titleTokens p.title).filter
      (fun w => ¬ comparisonStopWords.contains w)).dedup
    (p.paper_id, (mine.filter (fun w => all_words.count w = 1)).take 3))

/-- Python truthiness of an optional string, as in `p.venue or "Unknown"`. -/
def venueOr (v : Option String) : String :=
  match v with
  | some s => if s = "" then "Unknown" else s
  | none => "Unknown"

/-- Intersection of a nonempty list of sets, `set.intersection(*sets)`
(the callers guard against the empty list). -/
def interAll : List (Finset String) → Finset String
  | [] => ∅
  | s :: rest => rest.foldl (fun a b => a ∩ b) s

/-- Union of a list of sets, `set.union(*sets)` with the empty default. -/
def unionAll : List (Finset String) → Finset String
  | [] => ∅
  | s :: rest => rest.foldl (fun a b => a ∪ b) s

/-- Models `PaperComparison` (core/models.py) with the Pydantic field
defaults; dict-valued fields are insertion-ordered association lists. -/
structure PaperComparison where
  papers : List Paper := []
  publication_timeline : List (String × Option Int × String) := []
  venue_comparison : List (String × String) := []
  citation_counts : List (String × Nat) := []
  shared_references : List Paper := []
  unique_references : List (String × List Paper) := []
  shared_citers : List Paper := []
  citation_overlap_score : ℚ := 0
  common_themes : List String := []
  distinguishing_aspects : List (String × List String) := []
deriving Repr, DecidableEq

/-- Ascending comparison on `x.year or 0` used by the publication timeline. -/
def yearLe (a b : Paper) : Bool := decide (a.year.getD 0 ≤ b.year.getD 0)

/-- Materialise the members of a set of ids as `PaperInfo`s in dict order,
modelling `[graph.papers[rid] for rid in ids if rid in graph.papers]` (the
CPython set-iteration order is unspecified; dict insertion order is taken as
canonical). -/
def materialize (g : CitationGraph) (ids : Finset String) : List Paper :=
  (g.papers.filter (fun kv => kv.1 ∈ ids)).map Prod.snd

/-- Models `ComparisonAnalyzer.compare_papers` (core/analysis.py lines
730-808).  Note `unique = paper_refs - (all_refs - paper_refs)` is taken
verbatim from line 767. -/
def compare_papers (g : CitationGraph) (paper_ids : List String) : PaperComparison :=
  let papers := paper_ids.filterMap (fun pid => lookupPaper g pid)
  if papers.length < 2 then { papers := papers }
  else
    let reference_sets := papers.map (fun p => cites g p.paper_id)
    let shared_ref_ids := interAll reference_sets
    let all_refs := unionAll reference_sets
    let citer_sets := papers.map (fun p => cited_by g p.paper_id)
    let shared_citer_ids := interAll citer_sets
    let all_citers := unionAll citer_sets
    { papers := papers
      publication_timeline :=
        (sortBy yearLe papers).map (fun p => (p.paper_id, p.year, p.title.take 50))
      venue_comparison := papers.map (fun p => (p.paper_id, venueOr p.venue))
      citation_counts := papers.map (fun p => (p.paper_id, p.citation_count.getD 0))
      shared_references := (materialize g shared_ref_ids).take 10
      unique_references := papers.map (fun p =>
        let paper_refs := cites g p.paper_id
        let unique := paper_refs \ (all_refs \ paper_refs)
        (p.paper_id, (materialize g unique).take 5))
      shared_citers := (materialize g shared_citer_ids).take 10
      citation_overlap_score :=
        if all_citers = ∅ then 0
        else (shared_citer_ids.card : ℚ) / (all_citers.card : ℚ)
      common_themes := extract_common_themes papers
      distinguishing_aspects := find_distinguishing_aspects papers }

/-- Models `PaperCluster` (core/models.py), restricted to the fields the gap
analyser reads. -/
structure PaperCluster where
  cluster_id : String
  label : String := ""
  papers : List Paper := []
  central_paper_id : String := ""
  key_terms : List String := []
  year_range : Option Int × Option Int := (none, none)
deriving Repr, DecidableEq

/-- Models `ResearchGap` (core/models.py) with its Pydantic defaults. -/
structure ResearchGap where
  gap_id : String
  description : String := ""
  gap_type : String := "unexplored"
  evidence_papers : List String := []
  related_clusters : List String := []
  confidence : ℚ := 1/2
  potential_topics : List String := []
deriving Repr, DecidableEq

/-- Models `GapAnalyzer._build_indexes`: `paper_to_cluster` is filled by
iterating clusters in order with later assignments overwriting, hence the
last cluster containing the paper wins. -/
def paperToCluster (clusters : List PaperCluster) (pid : String) : Option String :=
  (clusters.reverse.find? (fun c => c.papers.any (fun p => p.paper_id = pid))).map
    (fun c => c.cluster_id)

/-- Code-point lexicographic comparison on character lists (the ordering
Python uses on strings). -/
def charListLe : List Char → List Char → Bool
  | [], _ => true
  | _ :: _, [] => false
  | a :: as, b :: bs =>
    if a.toNat < b.toNat then true
    else if b.toNat < a.toNat then false
    else charListLe as bs

/-- String comparison by code points. -/
def strLe (a b : String) : Bool := charListLe a.toList b.toList

/-- Models `tuple(sorted([a, b]))` on two cluster ids. -/
def sortedPair (a b : String) : String × String :=
  if strLe a b then (a, b) else (b, a)

/-- Cross-cluster citation count for a normalised pair key
(`GapAnalyzer._build_indexes` lines 391-397; the `if cluster_a and cluster_b`
truthiness test also rejects empty-string cluster ids). -/
def crossClusterCount (g : CitationGraph) (clusters : List PaperCluster)
    (key : String × String) : Nat :=
  (g.edges.filter (fun e =>
    match paperToCluster clusters e.1, paperToCluster clusters e.2 with
    | some ca, some cb =>
        ¬ (ca = "") && ¬ (cb = "") && ¬ (ca = cb) && (sortedPair ca cb = key)
    | _, _ => false)).length

/-- The `connection_ratio` computed by `GapAnalyzer._find_bridging_gaps`
(lines 430-433). -/
def bridgingRatio (g : CitationGraph) (clusters : List PaperCluster)
    (ca cb : PaperCluster) : ℚ :=
  let cross := crossClusterCount g clusters (sortedPair ca.cluster_id cb.cluster_id)
  let max_possible : ℚ := ((ca.papers.length * cb.papers.length : ℕ) : ℚ)
  if 0 < max_possible then (cross : ℚ) / max_possible else 0

/-- Loop body of `GapAnalyzer._find_bridging_gaps` for one cluster pair
(core/analysis.py lines 423-454; the single quotes the source puts around
labels inside the description are elided). -/
def bridgingGapFor (g : CitationGraph) (clusters : List PaperCluster)
    (ca cb : PaperCluster) : Option ResearchGap :=
  if 3 ≤ ca.papers.length ∧ 3 ≤ cb.papers.length then
    if bridgingRatio g clusters ca cb < 1/20 then
      some
        { gap_id := "bridge_" ++ ca.cluster_id ++ "_" ++ cb.cluster_id
          description := "Limited research connecting " ++ ca.label ++ " and " ++ cb.label
          gap_type := "bridging"
          evidence_papers := [ca.central_paper_id, cb.central_paper_id]
          related_clusters := [ca.cluster_id, cb.cluster_id]
          confidence := min (9/10) (1 - bridgingRatio g clusters ca cb * 10)
          potential_topics :=
            ["Applying " ++ (ca.key_terms.headD "methods") ++ " to "
              ++ (cb.key_terms.headD "domain")] }
    else none
  else none

/-- The nested pair loop of `_find_bridging_gaps` over `clusters[i+1:]`. -/
def findBridgingGapsAux (g : CitationGraph) (all : List PaperCluster) :
    List PaperCluster → List ResearchGap
  | [] => []
  | c :: rest =>
    rest.filterMap (fun cb => bridgingGapFor g all c cb) ++ findBridgingGapsAux g all rest

/-- Models `GapAnalyzer._find_bridging_gaps`. -/
def find_bridging_gaps (g : CitationGraph) (clusters : List PaperCluster) :
    List ResearchGap :=
  findBridgingGapsAux g clusters clusters

/-- Truthy publication year, as in `if paper.year:` (year 0 is falsy). -/
def truthyYear (p : Paper) : Option Int :=
  match p.year with
  | some y => if y = 0 then none else some y
  | none => none

/-- Count of a cluster's papers in year `y`, i.e. `len(papers_by_year[y])`. -/
def papersInYear (c : PaperCluster) (y : Int) : Nat :=
  (c.papers.filter (fun p => truthyYear p = some y)).length

/-- Loop body of `GapAnalyzer._find_temporal_gaps` for one cluster
(core/analysis.py lines 462-499; quotes around the label elided). -/
def temporalGapFor (c : PaperCluster) : Option ResearchGap :=
  match c.year_range.2 with
  | none => none
  | some yr =>
    if yr = 0 then none
    else
      let distinct_years := (c.papers.filterMap truthyYear).dedup
      if distinct_years.length < 3 then none
      else
        let years := sortBy (fun a b => decide (a ≤ b)) distinct_years
        let recent_years := years.drop (years.length - 2)
        let early_years := years.take 2
        let recent_count := (recent_years.map (papersInYear c)).sum
        let early_count := (early_years.map (papersInYear c)).sum
        if 0 < early_count ∧ (recent_count : ℚ) / (early_count : ℚ) < 1/2 then
          some
            { gap_id := "temporal_" ++ c.cluster_id
              description := "Declining research activity in " ++ c.label
                ++ " (peaked around " ++ toString ((early_years.max?).getD 0) ++ ")"
              gap_type := "temporal"
              evidence_papers := (c.papers.take 3).map (fun p => p.paper_id)
              related_clusters := [c.cluster_id]
              confidence := 6/10
              potential_topics := (c.key_terms.take 2).map
                (fun term => "Revisiting " ++ term ++ " with modern techniques") }
        else none

/-- Models `GapAnalyzer._find_temporal_gaps`. -/
def find_temporal_gaps (clusters : List PaperCluster) : List ResearchGap :=
  clusters.filterMap temporalGapFor

/-- The method-cluster indicator terms (core/analysis.py lines 508-515). -/
def methodIndicators : List String :=
  ["algorithm", "model", "method", "approach", "network", "learning"]

/-- Whether a cluster is a "method" cluster: some lowercased key term is a
method indicator. -/
def isMethodCluster (c : PaperCluster) : Bool :=
  c.key_terms.any (fun t => methodIndicators.contains t.toLower)

/-- Loop body of `GapAnalyzer._find_methodological_gaps` for one
method/domain pair (lines 528-554; label quotes elided). -/
def methodologicalGapFor (g : CitationGraph) (clusters : List PaperCluster)
    (mc dc : PaperCluster) : Option ResearchGap :=
  let cross := crossClusterCount g clusters (sortedPair mc.cluster_id dc.cluster_id)
  if cross < 2 then
    some
      { gap_id := "method_" ++ mc.cluster_id ++ "_" ++ dc.cluster_id
        description := mc.label ++ " techniques rarely applied to " ++ dc.label
        gap_type := "methodological"
        evidence_papers := [mc.central_paper_id, dc.central_paper_id]
        related_clusters := [mc.cluster_id, dc.cluster_id]
        confidence := 1/2
        potential_topics :=
          ["Applying " ++ (mc.key_terms.headD "method") ++ " to "
            ++ (dc.key_terms.headD "domain")] }
  else none

/-- Models `GapAnalyzer._find_methodological_gaps` including the `[:10]` cap. -/
def find_methodological_gaps (g : CitationGraph) (clusters : List PaperCluster) :
    List ResearchGap :=
  let method_clusters := clusters.filter (fun c => isMethodCluster c)
  let domain_clusters := clusters.filter (fun c => ¬ isMethodCluster c)
  ((method_clusters.map (fun mc =>
    domain_clusters.filterMap (fun dc => methodologicalGapFor g clusters mc dc))).flatten).take 10

/-- Models the `gaps` list assembled by `GapAnalyzer.find_gaps`. -/
def find_gaps (g : CitationGraph) (clusters : List PaperCluster) : List ResearchGap :=
  find_bridging_gaps g clusters ++ find_temporal_gaps clusters
    ++ find_methodological_gaps g clusters

/-- Models `CitationRelationship` (core/models.py), identity parts only. -/
structure CitationRel where
  citing_paper : Paper
  cited_paper : Paper
deriving Repr, DecidableEq

/-- The remote metadata service as seen through `SemanticScholarClient`:
`get_paper`, and the relationship lists a citations / references fetch
returns for a given pivot id (transport and parsing are collapsed into
these maps; failures surface as `none` / empty lists exactly as the client
converts them). -/
structure Oracle where
  getPaper : String → Option Paper
  citationsOf : String → List CitationRel
  referencesOf : String → List CitationRel

/-- Marker distinguishing `_fetch_citations` from `_fetch_references`
results (graph.py lines 145-163). -/
inductive FetchKind where
  | citation
  | reference
deriving Repr, DecidableEq

/-- Accumulator state of `GraphBuilder.build`, instrumented with the ordered
lists of pivot ids for which a citations / references fetch task was
enqueued. -/
structure BuildState where
  papers : List (String × Paper)
  edges : List (String × String)
  visited : List String
  citFetched : List String
  refFetched : List String
deriving Repr, DecidableEq

/-- The task-enqueueing loop at the top of a BFS level (graph.py lines
87-96): each unvisited frontier id is added to `visited` and contributes its
fetch tasks in direction order. -/
def enqueueLevel (direction : String) (level : List String)
    (visited : List String) : List String × List (String × FetchKind) :=
  level.foldl
    (fun acc pid =>
      if pid ∈ acc.1 then acc
      else
        (acc.1 ++ [pid],
          acc.2
            ++ (if direction = "citations" ∨ direction = "both"
                then [(pid, FetchKind.citation)] else [])
            ++ (if direction = "references" ∨ direction = "both"
                then [(pid, FetchKind.reference)] else [])))
    (visited, [])

/-- The "add paper if not seen" part of the loop body (graph.py lines
117-120); state is `(papers, edges, next_level)`. -/
def addPaperIfNew (other : Paper)
    (st : List (String × Paper) × List (String × String) × List String) :
    List (String × Paper) × List (String × String) × List String :=
  if other.paper_id ∈ st.1.map Prod.fst then st
  else (st.1 ++ [(other.paper_id, other)], st.2.1, st.2.2 ++ [other.paper_id])

/-- The "add edge if not duplicate" part of the loop body (graph.py lines
122-124). -/
def addEdgeIfNew (edge : String × String)
    (st : List (String × Paper) × List (String × String) × List String) :
    List (String × Paper) × List (String × String) × List String :=
  if edge ∈ st.2.1 then st else (st.1, st.2.1 ++ [edge], st.2.2)

/-- Per-relationship processing (graph.py lines 108-124): resolve the edge
and the opposite endpoint, insert the paper if unseen (also scheduling it
for the next frontier), then append the edge iff it is not already
present. -/
def processRel (kind : FetchKind) (rel : CitationRel)
    (st : List (String × Paper) × List (String × String) × List String) :
    List (String × Paper) × List (String × String) × List String :=
  match kind with
  | .citation =>
    addEdgeIfNew (rel.citing_paper.paper_id, rel.cited_paper.paper_id)
      (addPaperIfNew rel.citing_paper st)
  | .reference =>
    addEdgeIfNew (rel.citing_paper.paper_id, rel.cited_paper.paper_id)
      (addPaperIfNew rel.cited_paper st)

/-- Process one gathered task result: the first `max_per_level` relationships
of the corresponding fetch. -/
def processTask (o : Oracle) (max_per_level : Nat)
    (st : List (String × Paper) × List (String × String) × List String)
    (task : String × FetchKind) :
    List (String × Paper) × List (String × String) × List String :=
  let rels :=
    match task.2 with
    | .citation => o.citationsOf task.1
    | .reference => o.referencesOf task.1
  (rels.take max_per_level).foldl (fun s r => processRel task.2 r s) st

/-- Pivot ids of the citations tasks in a task list, in order. -/
def citPids (ts : List (String × FetchKind)) : List String :=
  ts.filterMap (fun t => if t.2 = FetchKind.citation then some t.1 else none)

/-- Pivot ids of the references tasks in a task list, in order. -/
def refPids (ts : List (String × FetchKind)) : List String :=
  ts.filterMap (fun t => if t.2 = FetchKind.reference then some t.1 else none)

/-- The level-synchronous BFS loop of `GraphBuilder.build` (asyncio.gather
returns results in task order, so results are processed in enqueue order;
recursing on an empty frontier is a no-op, matching the early `break`). -/
def buildLevels (o : Oracle) (direction : String) (max_per_level : Nat) :
    Nat → BuildState → List String → BuildState
  | 0, st, _ => st
  | d + 1, st, level =>
    let eq := enqueueLevel direction level st.visited
    let st1 : BuildState :=
      { st with
        visited := eq.1
        citFetched := st.citFetched ++ citPids eq.2
        refFetched := st.refFetched ++ refPids eq.2 }
    let out := eq.2.foldl (processTask o max_per_level) (st1.papers, st1.edges, [])
    buildLevels o direction max_per_level d
      { st1 with papers := out.1, edges := out.2.1 } out.2.2

/-- Result of `GraphBuilder.build`, carrying the fetch instrumentation. -/
structure BuildResult where
  graph : CitationGraph
  citFetched : List String
  refFetched : List String

/-- Models `GraphBuilder.build` (core/graph.py lines 45-143). -/
def build (o : Oracle) (root_paper_id : String) (depth : Nat)
    (direction : String) (max_per_level : Nat) : BuildResult :=
  let depth1 := min (max depth 1) 3
  let root_paper := (o.getPaper root_paper_id).getD
    { paper_id := root_paper_id, title := "Unknown" }
  let st0 : BuildState :=
    { papers := [(root_paper_id, root_paper)], edges := [], visited := [],
      citFetched := [], refFetched := [] }
  let stF := buildLevels o direction max_per_level depth1 st0 [root_paper_id]
  { graph :=
      { root_paper_id := root_paper_id, papers := stF.papers, edges := stF.edges,
        depth := depth1, direction := direction }
    citFetched := stF.citFetched
    refFetched := stF.refFetched }

/-- Dict assignment `papers[pid] = paper`: update in place if the key exists,
else append. -/
def setPaper (ps : List (String × Paper)) (pid : String) (p : Paper) :
    List (String × Paper) :=
  if pid ∈ ps.map Prod.fst
  then ps.map (fun kv => if kv.1 = pid then (pid, p) else kv)
  else ps ++ [(pid, p)]

/-- Per-input-id body of `CitationService._build_graph_from_papers`
(core/service.py lines 427-444): skip unresolved papers, then append one edge
per reference and per citation with no duplicate check. -/
def fromPapersStep (o : Oracle)
    (st : List (String × Paper) × List (String × String)) (pid : String) :
    List (String × Paper) × List (String × String) :=
  match o.getPaper pid with
  | none => st
  | some paper =>
    let st1 := (setPaper st.1 pid paper, st.2)
    let st2 := (o.referencesOf pid).foldl
      (fun s ref =>
        let ps := if ref.cited_paper.paper_id ∈ s.1.map Prod.fst then s.1
          else s.1 ++ [(ref.cited_paper.paper_id, ref.cited_paper)]
        (ps, s.2 ++ [(pid, ref.cited_paper.paper_id)])) st1
    (o.citationsOf pid).foldl
      (fun s cit =>
        let ps := if cit.citing_paper.paper_id ∈ s.1.map Prod.fst then s.1
          else s.1 ++ [(cit.citing_paper.paper_id, cit.citing_paper)]
        (ps, s.2 ++ [(cit.citing_paper.paper_id, pid)])) st2

/-- Models `CitationService._build_graph_from_papers` (core/service.py lines
421-452).  The Python indexes `paper_ids[0]` and raises on an empty list;
its callers guarantee nonemptiness, and the embedding totalises with
`headD`. -/
def build_graph_from_papers (o : Oracle) (paper_ids : List String) : CitationGraph :=
  let st := paper_ids.foldl (fromPapersStep o) ([], [])
  { root_paper_id := paper_ids.headD "", papers := st.1, edges := st.2,
    depth := 1, direction := "both" }

/-- Limit actually placed in the request parameters by
`SemanticScholarClient.search_papers` (client.py line 422). -/
def search_papers_sent_limit (limit : Int) : Int := min limit 100

/-- Limit placed in the request by `SemanticScholarClient.get_citations`
(client.py lines 228-296): forwarded unmodified. -/
def client_get_citations_sent_limit (limit : Int) : Int := limit

/-- Limit placed in the request by `SemanticScholarClient.get_references`
(client.py lines 297-364): forwarded unmodified. -/
def client_get_references_sent_limit (limit : Int) : Int := limit

/-- Limit reaching the remote when the caller goes through
`CitationService.get_citations` (service.py line 106). -/
def service_get_citations_sent_limit (limit : Int) : Int :=
  client_get_citations_sent_limit (min limit 100)

/-- Limit reaching the remote when the caller goes through
`CitationService.get_references` (service.py line 137). -/
def service_get_references_sent_limit (limit : Int) : Int :=
  client_get_references_sent_limit (min limit 100)

/-- Limit reaching the remote when `GraphBuilder._fetch_citations` calls the
client with `limit=max_papers_per_level` (graph.py lines 150-152). -/
def builder_fetch_citations_sent_limit (max_papers_per_level : Int) : Int :=
  client_get_citations_sent_limit max_papers_per_level

/-! Concrete instances used by witnesses, counterexamples and failing-input
evaluations. -/

/-- A paper with only an id (remaining fields at their model defaults). -/
def mkPaper (s : String) : Paper := { paper_id := s }

def pA : Paper := { paper_id := "A", title := "Using Networks" }

def pB : Paper := { paper_id := "B", title := "Using Graphs" }

def pY : Paper := { paper_id := "Y", title := "Cited Work" }

/-- Graph in which papers A and B both cite Y. -/
def gAB : CitationGraph :=
  { root_paper_id := "A"
    papers := [("A", pA), ("B", pB), ("Y", pY)]
    edges := [("A", "Y"), ("B", "Y")] }

/-- Single-paper graph. -/
def gOne : CitationGraph := { root_paper_id := "A", papers := [("A", pA)] }

/-- Upstream state in which A is found with B among its references, and B is
found with A among its citers: the same arc A→B is discoverable twice. -/
def oDup : Oracle :=
  { getPaper := fun pid =>
      if pid = "A" then some pA else if pid = "B" then some pB else none
    citationsOf := fun pid =>
      if pid = "B" then [{ citing_paper := pA, cited_paper := pB }] else []
    referencesOf := fun pid =>
      if pid = "A" then [{ citing_paper := pA, cited_paper := pB }] else [] }

/-- Upstream state in which no paper resolves and every fetch is empty. -/
def oEmpty : Oracle :=
  { getPaper := fun _ => none, citationsOf := fun _ => [], referencesOf := fun _ => [] }

/-- Two three-paper clusters with no cross edges in the ambient graph. -/
def clusterA : PaperCluster :=
  { cluster_id := "cluster_0", papers := [mkPaper "a1", mkPaper "a2", mkPaper "a3"],
    central_paper_id := "a1" }

def clusterB : PaperCluster :=
  { cluster_id := "cluster_1", papers := [mkPaper "b1", mkPaper "b2", mkPaper "b3"],
    central_paper_id := "b1" }

def gGap : CitationGraph := { root_paper_id := "a1" }

def csGap : List PaperCluster := [clusterA, clusterB]

end CGE

namespace CGE

/-! Generic helper lemmas. -/

theorem foldl_preserves {σ β : Type} {P : σ → Prop} (f : σ → β → σ)
    (hf : ∀ s b, P s → P (f s b)) : ∀ (l : List β) (s : σ), P s → P (l.foldl f s)
  | [], _, hs => hs
  | b :: l, s, hs => foldl_preserves f hf l (f s b) (hf s b hs)

theorem mem_insertBy {α : Type} (le : α → α → Bool) (x a : α) :
    ∀ l : List α, a ∈ insertBy le x l ↔ a = x ∨ a ∈ l
  | [] => by simp [insertBy]
  | y :: ys => by
    simp only [insertBy]
    split
    · rw [List.mem_cons, mem_insertBy le x a ys, List.mem_cons]
      tauto
    · exact List.mem_cons

theorem length_insertBy {α : Type} (le : α → α → Bool) (x : α) :
    ∀ l : List α, (insertBy le x l).length = l.length + 1
  | [] => rfl
  | y :: ys => by
    simp only [insertBy]
    split
    · simp [length_insertBy le x ys]
    · simp

theorem pairwise_insertBy {α : Type} {le : α → α → Bool}
    (htot : ∀ a b, le a b = false → le b a = true)
    (htrans : ∀ a b c, le a b = true → le b c = true → le a c = true)
    (x : α) : ∀ l : List α, l.Pairwise (fun a b => le a b = true) →
      (insertBy le x l).Pairwise (fun a b => le a b = true)
  | [], _ => by simp [insertBy]
  | y :: ys, h => by
    rw [List.pairwise_cons] at h
    obtain ⟨hy, hys⟩ := h
    simp only [insertBy]
    split
    · rename_i hle
      rw [List.pairwise_cons]
      refine ⟨?_, pairwise_insertBy htot htrans x ys hys⟩
      intro b hb
      rcases (mem_insertBy le x b ys).mp hb with hbx | hbys
      · exact hbx ▸ hle
      · exact hy b hbys
    · rename_i hle
      have hxy : le x y = true := htot y x (Bool.eq_false_iff.mpr hle)
      rw [List.pairwise_cons]
      constructor
      · intro b hb
        rcases List.mem_cons.mp hb with rfl | hbys
        · exact hxy
        · exact htrans x y b hxy (hy b hbys)
      · exact List.pairwise_cons.mpr ⟨hy, hys⟩

theorem pairwise_sortByAux {α : Type} {le : α → α → Bool}
    (htot : ∀ a b, le a b = false → le b a = true)
    (htrans : ∀ a b c, le a b = true → le b c = true → le a c = true) :
    ∀ (l acc : List α), acc.Pairwise (fun a b => le a b = true) →
      (l.foldl (fun acc x => insertBy le x acc) acc).Pairwise
        (fun a b => le a b = true)
  | [], _, h => h
  | x :: l, acc, h =>
    pairwise_sortByAux htot htrans l (insertBy le x acc)
      (pairwise_insertBy htot htrans x acc h)

theorem pairwise_sortBy {α : Type} {le : α → α → Bool}
    (htot : ∀ a b, le a b = false → le b a = true)
    (htrans : ∀ a b c, le a b = true → le b c = true → le a c = true)
    (l : List α) : (sortBy le l).Pairwise (fun a b => le a b = true) :=
  pairwise_sortByAux htot htrans l [] List.Pairwise.nil

theorem mem_sortByAux {α : Type} (le : α → α → Bool) (a : α) :
    ∀ (l acc : List α),
      a ∈ l.foldl (fun acc x => insertBy le x acc) acc ↔ a ∈ acc ∨ a ∈ l
  | [], acc => by simp
  | x :: l, acc => by
    simp only [List.foldl_cons]
    rw [mem_sortByAux le a l (insertBy le x acc), mem_insertBy]
    simp
    tauto

theorem mem_sortBy {α : Type} (le : α → α → Bool) (a : α) (l : List α) :
    a ∈ sortBy le l ↔ a ∈ l := by
  rw [sortBy, mem_sortByAux]
  simp

theorem scoreGe_total (a b : String × ℚ) :
    scoreGe a b = false → scoreGe b a = true := by
  simp only [scoreGe, decide_eq_false_iff_not, decide_eq_true_eq]
  intro h
  linarith [le_of_not_le h]

theorem scoreGe_trans (a b c : String × ℚ) :
    scoreGe a b = true → scoreGe b c = true → scoreGe a c = true := by
  simp only [scoreGe, decide_eq_true_eq]
  intro h1 h2
  linarith

/-- Claim C5: for every graph, every source paper in the graph, every
similarity method and every k, `compute_similarity` returns at most k
results, each with score strictly greater than 0, in non-increasing score
order. -/
theorem compute_similarity_spec (g : CitationGraph) (paper_id : String)
    (method : SimilarityMethod) (top_k : Nat) (h : paper_id ∈ paperKeys g) :
    (compute_similarity g paper_id method top_k).length ≤ top_k ∧
    (∀ x ∈ compute_similarity g paper_id method top_k, 0 < x.2) ∧
    (compute_similarity g paper_id method top_k).Pairwise
      (fun a b => b.2 ≤ a.2) := by
  have hdef : compute_similarity g paper_id method top_k =
      (sortBy scoreGe ((paperKeys g).filterMap (fun other_id =>
        if other_id = paper_id then none
        else
          let s := pairScore g paper_id other_id method
          if 0 < s then some (other_id, s) else none))).take top_k := by
    simp only [compute_similarity, if_pos h]
  rw [hdef]
  refine ⟨?_, ?_, ?_⟩
  · rw [List.length_take]
    exact min_le_left _ _
  · intro x hx
    have hx1 := List.take_subset _ _ hx
    rw [mem_sortBy] at hx1
    obtain ⟨o, _, heq⟩ := List.mem_filterMap.mp hx1
    by_cases h1 : o = paper_id
    · simp [h1] at heq
    · simp only [h1, if_false, ite_eq_iff] at heq
      rcases heq with ⟨hpos, hsome⟩ | ⟨_, hnone⟩
      · cases hsome
        exact hpos
      · cases hnone
  · have hp := pairwise_sortBy scoreGe_total scoreGe_trans
      ((paperKeys g).filterMap (fun other_id =>
        if other_id = paper_id then none
        else
          let s := pairScore g paper_id other_id method
          if 0 < s then some (other_id, s) else none))
    have hp2 := hp.imp (fun hab => by
      simpa [scoreGe, decide_eq_true_eq] using hab)
    exact hp2.sublist (List.take_sublist _ _)

/-- Witness for C5 at a concrete graph, source and method. -/
theorem compute_similarity_spec_witness :
    (compute_similarity gAB "A" SimilarityMethod.bibliographic_coupling 5).length ≤ 5 ∧
    (∀ x ∈ compute_similarity gAB "A" SimilarityMethod.bibliographic_coupling 5,
      0 < x.2) ∧
    (compute_similarity gAB "A" SimilarityMethod.bibliographic_coupling 5).Pairwise
      (fun a b => b.2 ≤ a.2) :=
  compute_similarity_spec gAB "A" SimilarityMethod.bibliographic_coupling 5 (by decide)

/-- Claim C8: when the source paper is not a key of `graph.papers`,
`compute_similarity` returns the empty list. -/
theorem compute_similarity_missing_source (g : CitationGraph) (paper_id : String)
    (method : SimilarityMethod) (top_k : Nat) (h : paper_id ∉ paperKeys g) :
    compute_similarity g paper_id method top_k = [] := by
  simp only [compute_similarity, if_neg h]

/-- Witness for C8 at a concrete graph and absent source id. -/
theorem compute_similarity_missing_source_witness :
    compute_similarity gAB "Z" SimilarityMethod.citation_overlap 10 = [] :=
  compute_similarity_missing_source gAB "Z" SimilarityMethod.citation_overlap 10
    (by decide)

/-- Claim C9: `compare_papers` silently drops ids missing from the graph, and
with fewer than 2 survivors returns a `PaperComparison` holding the survivors
and the default value in every other field. -/
theorem compare_papers_underfull (g : CitationGraph) (paper_ids : List String)
    (h : (paper_ids.filterMap (fun pid => lookupPaper g pid)).length < 2) :
    compare_papers g paper_ids =
      { papers := paper_ids.filterMap (fun pid => lookupPaper g pid) } := by
  simp only [compare_papers, if_pos h]

/-- Witness for C9: one of the two requested ids is absent, so a single paper
survives and the comparison is the default record around it. -/
theorem compare_papers_underfull_witness :
    compare_papers gOne ["A", "Z"] = { papers := [pA] } := by
  rw [compare_papers_underfull gOne ["A", "Z"] (by decide)]
  decide

/-- Claim C1 (failing input): papers A and B both cite Y, yet the computed
`unique_references` lists Y under both A and B — `paper_refs - (all_refs -
paper_refs)` collapses to `paper_refs`, so the output is not disjoint from
the other compared paper's citations as the `unique_references` field
documentation requires. -/
theorem compare_papers_unique_references_failing :
    (compare_papers gAB ["A", "B"]).unique_references =
      [("A", [pY]), ("B", [pY])] ∧
    "Y" ∈ cites gAB "A" ∧ "Y" ∈ cites gAB "B" := by
  decide

/-- The `common_themes` field of a comparison, by branch. -/
theorem compare_papers_common_themes_eq (g : CitationGraph)
    (paper_ids : List String) :
    (compare_papers g paper_ids).common_themes =
      if (paper_ids.filterMap (fun pid => lookupPaper g pid)).length < 2 then []
      else extract_common_themes (paper_ids.filterMap (fun pid => lookupPaper g pid)) := by
  simp only [compare_papers]
  by_cases h : (paper_ids.filterMap (fun pid => lookupPaper g pid)).length < 2
  · rw [if_pos h, if_pos h]
  · rw [if_neg h, if_neg h]

/-- The `papers` field of a comparison is the list of surviving papers in
both branches. -/
theorem compare_papers_papers_eq (g : CitationGraph) (paper_ids : List String) :
    (compare_papers g paper_ids).papers =
      paper_ids.filterMap (fun pid => lookupPaper g pid) := by
  simp only [compare_papers]
  by_cases h : (paper_ids.filterMap (fun pid => lookupPaper g pid)).length < 2
  · rw [if_pos h]
  · rw [if_neg h]

theorem extract_common_themes_spec (papers : List Paper) :
    (extract_common_themes papers).length ≤ 5 ∧
    ∀ w ∈ extract_common_themes papers,
      w ∉ comparisonStopWords ∧ ∀ p ∈ papers, w ∈ titleTokens p.title := by
  cases papers with
  | nil => exact ⟨by simp [extract_common_themes], by simp [extract_common_themes]⟩
  | cons p ps =>
    have hdef : extract_common_themes (p :: ps) =
        ((((titleTokens p.title).filter
            (fun w => ¬ comparisonStopWords.contains w)).dedup).filter
          (fun w => (ps.map (fun q => ((titleTokens q.title).filter
            (fun w => ¬ comparisonStopWords.contains w)).dedup)).all
              (fun s => s.contains w))).take 5 := by
      simp only [extract_common_themes, List.map_cons]
    rw [hdef]
    constructor
    · rw [List.length_take]
      exact min_le_left _ _
    · intro w hw
      have hw1 := List.take_subset _ _ hw
      rw [List.mem_filter] at hw1
      obtain ⟨hwp, hall⟩ := hw1
      rw [List.mem_dedup, List.mem_filter] at hwp
      obtain ⟨hwtok, hwstop⟩ := hwp
      have hstop : w ∉ comparisonStopWords := by
        simpa using hwstop
      refine ⟨hstop, ?_⟩
      intro q hq
      rcases List.mem_cons.mp hq with rfl | hqs
      · exact hwtok
      · have hq2 : (((titleTokens q.title).filter
            (fun w => ¬ comparisonStopWords.contains w)).dedup).contains w = true := by
          rw [List.all_eq_true] at hall
          exact hall _ (List.mem_map_of_mem _ hqs)
        have hq3 : w ∈ ((titleTokens q.title).filter
            (fun w => ¬ comparisonStopWords.contains w)).dedup := by
          simpa using hq2
        rw [List.mem_dedup, List.mem_filter] at hq3
        exact hq3.1

/-- Claim C7 (amended): the comparison's `common_themes` holds at most 5
words, each a title token of every surviving compared paper and none drawn
from the 12-word stop set `{a, an, the, of, in, for, on, with, to, and, is,
are}` that `_extract_common_themes` actually uses. -/
theorem common_themes_spec (g : CitationGraph) (paper_ids : List String) :
    ((compare_papers g paper_ids).common_themes).length ≤ 5 ∧
    ∀ w ∈ (compare_papers g paper_ids).common_themes,
      w ∉ comparisonStopWords ∧
      ∀ p ∈ (compare_papers g paper_ids).papers, w ∈ titleTokens p.title := by
  rw [compare_papers_common_themes_eq, compare_papers_papers_eq]
  by_cases h : (paper_ids.filterMap (fun pid => lookupPaper g pid)).length < 2
  · rw [if_pos h]
    exact ⟨by simp, by simp⟩
  · rw [if_neg h]
    exact extract_common_themes_spec _

/-- Counterexample for C7 as stated: both compared titles contain "using",
which belongs to the spec's 25-word stop set but not to the 12-word set the
comparison code uses, so it surfaces in `common_themes`. -/
theorem common_themes_counterexample :
    "using" ∈ (compare_papers gAB ["A", "B"]).common_themes ∧
    "using" ∈ clusteringStopWords := by
  decide

/-- Claim C4 (amended): the cap at 100 is applied by `search_papers` inside
the client and by the service-layer `get_citations` / `get_references`
wrappers, while the client-level `get_citations` / `get_references` forward
the caller's limit to the transport unmodified. -/
theorem limit_caps (limit : Int) :
    search_papers_sent_limit limit ≤ 100 ∧
    service_get_citations_sent_limit limit ≤ 100 ∧
    service_get_references_sent_limit limit ≤ 100 ∧
    client_get_citations_sent_limit limit = limit ∧
    client_get_references_sent_limit limit = limit :=
  ⟨min_le_right _ _, min_le_right _ _, min_le_right _ _, rfl, rfl⟩

/-- Counterexample for C4 as stated: a direct client call (as issued by
`GraphBuilder` with `max_papers_per_level = 200`) sends a limit of 200 to
the remote service, above the stated maximum of 100. -/
theorem client_limit_counterexample :
    client_get_citations_sent_limit 200 = 200 ∧
    client_get_references_sent_limit 200 = 200 ∧
    builder_fetch_citations_sent_limit 200 = 200 ∧
    ¬ client_get_citations_sent_limit 200 ≤ 100 := by
  decide

theorem bridgingRatio_nonneg (g : CitationGraph) (cs : List PaperCluster)
    (ca cb : PaperCluster) : 0 ≤ bridgingRatio g cs ca cb := by
  simp only [bridgingRatio]
  split
  · rename_i h
    exact div_nonneg (Nat.cast_nonneg _) (le_of_lt h)
  · exact le_refl 0

theorem bridgingGapFor_eq_some (g : CitationGraph) (cs : List PaperCluster)
    (ca cb : PaperCluster) (gap : ResearchGap)
    (h : bridgingGapFor g cs ca cb = some gap) :
    gap.confidence = min (9/10) (1 - bridgingRatio g cs ca cb * 10) ∧
    gap.gap_type = "bridging" ∧ bridgingRatio g cs ca cb < 1/20 ∧
    3 ≤ ca.papers.length ∧ 3 ≤ cb.papers.length := by
  simp only [bridgingGapFor] at h
  by_cases h3 : 3 ≤ ca.papers.length ∧ 3 ≤ cb.papers.length
  · rw [if_pos h3] at h
    by_cases hr : bridgingRatio g cs ca cb < 1/20
    · rw [if_pos hr] at h
      injection h with h2
      subst h2
      exact ⟨rfl, rfl, hr, h3.1, h3.2⟩
    · rw [if_neg hr] at h
      exact Option.noConfusion h
  · rw [if_neg h3] at h
    exact Option.noConfusion h

theorem mem_findBridgingGapsAux (g : CitationGraph) (all : List PaperCluster) :
    ∀ (cs : List PaperCluster) (gap : ResearchGap),
      gap ∈ findBridgingGapsAux g all cs →
      ∃ ca cb, [ca, cb].Sublist cs ∧ bridgingGapFor g all ca cb = some gap
  | [], gap, h => absurd h (by simp [findBridgingGapsAux])
  | c :: rest, gap, h => by
    simp only [findBridgingGapsAux, List.mem_append] at h
    rcases h with h | h
    · obtain ⟨cb, hcb, heq⟩ := List.mem_filterMap.mp h
      exact ⟨c, cb, List.Sublist.cons₂ c (List.singleton_sublist.mpr hcb), heq⟩
    · obtain ⟨ca, cb, hsub, heq⟩ := mem_findBridgingGapsAux g all rest gap h
      exact ⟨ca, cb, hsub.cons c, heq⟩

theorem findBridgingGapsAux_mem_of (g : CitationGraph) (all : List PaperCluster) :
    ∀ (cs : List PaperCluster) (ca cb : PaperCluster) (gap : ResearchGap),
      [ca, cb].Sublist cs → bridgingGapFor g all ca cb = some gap →
      gap ∈ findBridgingGapsAux g all cs
  | [], ca, cb, gap, hsub, _ => absurd hsub (by simp)
  | c :: rest, ca, cb, gap, hsub, heq => by
    simp only [findBridgingGapsAux, List.mem_append]
    cases hsub
    · rename_i h
      exact Or.inr (findBridgingGapsAux_mem_of g all rest ca cb gap h heq)
    · rename_i h
      exact Or.inl (List.mem_filterMap.mpr ⟨cb, List.singleton_sublist.mp h, heq⟩)

theorem temporalGapFor_confidence (c : PaperCluster) (gap : ResearchGap)
    (h : temporalGapFor c = some gap) : gap.confidence = 6/10 := by
  simp only [temporalGapFor] at h
  split at h
  · exact Option.noConfusion h
  · split at h
    · exact Option.noConfusion h
    · split at h
      · exact Option.noConfusion h
      · split at h
        · injection h with h2
          subst h2
          rfl
        · exact Option.noConfusion h

theorem methodologicalGapFor_confidence (g : CitationGraph)
    (cs : List PaperCluster) (mc dc : PaperCluster) (gap : ResearchGap)
    (h : methodologicalGapFor g cs mc dc = some gap) : gap.confidence = 1/2 := by
  simp only [methodologicalGapFor] at h
  split at h
  · injection h with h2
    subst h2
    rfl
  · exact Option.noConfusion h

theorem mem_find_methodological_gaps (g : CitationGraph)
    (cs : List PaperCluster) (gap : ResearchGap)
    (h : gap ∈ find_methodological_gaps g cs) :
    ∃ mc dc, methodologicalGapFor g cs mc dc = some gap := by
  simp only [find_methodological_gaps] at h
  have h1 := List.take_subset _ _ h
  obtain ⟨l, hl, hgl⟩ := List.mem_flatten.mp h1
  obtain ⟨mc, _, hmap⟩ := List.mem_map.mp hl
  rw [← hmap] at hgl
  obtain ⟨dc, _, heq⟩ := List.mem_filterMap.mp hgl
  exact ⟨mc, dc, heq⟩

/-- Claim C6: for clusters of size at least 3, a bridging gap is emitted for
a pair exactly when its cross-cluster connection ratio r is below 1/20, the
emitted confidence is exactly `min(0.9, 1 − 10·r)`, and every gap the
analyser emits (bridging, temporal, methodological) has confidence in
`[0, 1]`. -/
theorem bridging_gap_spec (g : CitationGraph) (clusters : List PaperCluster) :
    (∀ ca cb : PaperCluster, 3 ≤ ca.papers.length → 3 ≤ cb.papers.length →
      (((∃ gap, bridgingGapFor g clusters ca cb = some gap) ↔
          bridgingRatio g clusters ca cb < 1/20) ∧
        ∀ gap, bridgingGapFor g clusters ca cb = some gap →
          gap.confidence = min (9/10) (1 - bridgingRatio g clusters ca cb * 10))) ∧
    (∀ (ca cb : PaperCluster) (gap : ResearchGap), [ca, cb].Sublist clusters →
      bridgingGapFor g clusters ca cb = some gap →
      gap ∈ find_bridging_gaps g clusters) ∧
    (∀ gap ∈ find_bridging_gaps g clusters,
      ∃ ca cb, [ca, cb].Sublist clusters ∧
        bridgingGapFor g clusters ca cb = some gap) ∧
    ∀ gap ∈ find_gaps g clusters, 0 ≤ gap.confidence ∧ gap.confidence ≤ 1 := by
  refine ⟨?_, ?_, ?_, ?_⟩
  · intro ca cb h3a h3b
    constructor
    · constructor
      · rintro ⟨gap, hgap⟩
        exact (bridgingGapFor_eq_some g clusters ca cb gap hgap).2.2.1
      · intro hr
        simp only [bridgingGapFor, if_pos (And.intro h3a h3b), if_pos hr]
        exact ⟨_, rfl⟩
    · intro gap hgap
      exact (bridgingGapFor_eq_some g clusters ca cb gap hgap).1
  · exact fun ca cb gap hsub heq =>
      findBridgingGapsAux_mem_of g clusters clusters ca cb gap hsub heq
  · exact fun gap h => mem_findBridgingGapsAux g clusters clusters gap h
  · intro gap hmem
    simp only [find_gaps, List.mem_append] at hmem
    rcases hmem with (h | h) | h
    · obtain ⟨ca, cb, _, heq⟩ := mem_findBridgingGapsAux g clusters clusters gap h
      obtain ⟨hconf, _, hr, _, _⟩ := bridgingGapFor_eq_some g clusters ca cb gap heq
      have hnn := bridgingRatio_nonneg g clusters ca cb
      rw [hconf]
      constructor
      · apply le_min
        · norm_num
        · linarith
      · exact le_trans (min_le_left _ _) (by norm_num)
    · obtain ⟨c, _, heq⟩ := List.mem_filterMap.mp h
      rw [temporalGapFor_confidence c gap heq]
      norm_num
    · obtain ⟨mc, dc, heq⟩ := mem_find_methodological_gaps g clusters gap h
      rw [methodologicalGapFor_confidence g clusters mc dc gap heq]
      norm_num

/-- Witness for C6: two 3-paper clusters with no cross edges (r = 0), for
which a bridging gap is emitted, and the bound check on the resulting gap
list. -/
theorem bridging_gap_spec_witness :
    (∃ gap, bridgingGapFor gGap csGap clusterA clusterB = some gap) ∧
    ∀ gap ∈ find_gaps gGap csGap, 0 ≤ gap.confidence ∧ gap.confidence ≤ 1 :=
  ⟨((bridging_gap_spec gGap csGap).1 clusterA clusterB (by decide) (by decide)).1.mpr
      (by norm_num [bridgingRatio, crossClusterCount, gGap, clusterA, clusterB]),
    (bridging_gap_spec gGap csGap).2.2.2⟩

theorem nodup_snoc {α : Type} {l : List α} {a : α} (h : l.Nodup) (ha : a ∉ l) :
    (l ++ [a]).Nodup := by
  rw [List.nodup_append]
  refine ⟨h, List.nodup_singleton a, ?_⟩
  intro x hx hx1
  rw [List.mem_singleton] at hx1
  exact ha (hx1 ▸ hx)

theorem nodup_append_disj {α : Type} {l1 l2 : List α} (h1 : l1.Nodup)
    (h2 : l2.Nodup) (h : ∀ x ∈ l2, x ∉ l1) : (l1 ++ l2).Nodup := by
  rw [List.nodup_append]
  exact ⟨h1, h2, fun x hx hx2 => h x hx2 hx⟩

theorem addPaperIfNew_edges (p : Paper)
    (st : List (String × Paper) × List (String × String) × List String) :
    (addPaperIfNew p st).2.1 = st.2.1 := by
  simp only [addPaperIfNew]
  split <;> rfl

theorem addEdgeIfNew_nodup (e : String × String)
    (st : List (String × Paper) × List (String × String) × List String)
    (h : st.2.1.Nodup) : (addEdgeIfNew e st).2.1.Nodup := by
  simp only [addEdgeIfNew]
  split
  · exact h
  · rename_i he
    exact nodup_snoc h he

theorem processRel_edges_nodup (k : FetchKind) (rel : CitationRel)
    (st : List (String × Paper) × List (String × String) × List String)
    (h : st.2.1.Nodup) : (processRel k rel st).2.1.Nodup := by
  cases k <;>
    simp only [processRel] <;>
    exact addEdgeIfNew_nodup _ _ (by rw [addPaperIfNew_edges]; exact h)

theorem processTask_edges_nodup (o : Oracle) (m : Nat)
    (st : List (String × Paper) × List (String × String) × List String)
    (task : String × FetchKind) (h : st.2.1.Nodup) :
    (processTask o m st task).2.1.Nodup := by
  simp only [processTask]
  exact foldl_preserves _ (fun s r hs => processRel_edges_nodup task.2 r s hs) _ st h

theorem buildLevels_edges_nodup (o : Oracle) (dir : String) (m : Nat) :
    ∀ (d : Nat) (st : BuildState) (level : List String), st.edges.Nodup →
      (buildLevels o dir m d st level).edges.Nodup
  | 0, _, _, h => h
  | d + 1, st, level, h => by
    simp only [buildLevels]
    exact buildLevels_edges_nodup o dir m d _ _
      (foldl_preserves (processTask o m)
        (fun s b hs => processTask_edges_nodup o m s b hs) _ _ h)

theorem addPaperIfNew_head (p : Paper) (kv : String × Paper)
    (st : List (String × Paper) × List (String × String) × List String)
    (h : ∃ rest, st.1 = kv :: rest) :
    ∃ rest, (addPaperIfNew p st).1 = kv :: rest := by
  obtain ⟨rest, hrest⟩ := h
  simp only [addPaperIfNew]
  split
  · exact ⟨rest, hrest⟩
  · exact ⟨rest ++ [(p.paper_id, p)], by rw [hrest]; rfl⟩

theorem addEdgeIfNew_papers (e : String × String)
    (st : List (String × Paper) × List (String × String) × List String) :
    (addEdgeIfNew e st).1 = st.1 := by
  simp only [addEdgeIfNew]
  split <;> rfl

theorem processRel_head (k : FetchKind) (rel : CitationRel) (kv : String × Paper)
    (st : List (String × Paper) × List (String × String) × List String)
    (h : ∃ rest, st.1 = kv :: rest) :
    ∃ rest, (processRel k rel st).1 = kv :: rest := by
  cases k <;>
    simp only [processRel] <;>
    rw [addEdgeIfNew_papers] <;>
    exact addPaperIfNew_head _ kv st h

theorem processTask_head (o : Oracle) (m : Nat) (kv : String × Paper)
    (st : List (String × Paper) × List (String × String) × List String)
    (task : String × FetchKind) (h : ∃ rest, st.1 = kv :: rest) :
    ∃ rest, (processTask o m st task).1 = kv :: rest := by
  simp only [processTask]
  exact foldl_preserves _ (fun s r hs => processRel_head task.2 r kv s hs) _ st h

theorem buildLevels_head (o : Oracle) (dir : String) (m : Nat) (kv : String × Paper) :
    ∀ (d : Nat) (st : BuildState) (level : List String),
      (∃ rest, st.papers = kv :: rest) →
      ∃ rest, (buildLevels o dir m d st level).papers = kv :: rest
  | 0, _, _, h => h
  | d + 1, st, level, h => by
    simp only [buildLevels]
    exact buildLevels_head o dir m kv d _ _
      (foldl_preserves (processTask o m)
        (fun s b hs => processTask_head o m kv s b hs) _ _ h)

theorem citPids_append (t1 t2 : List (String × FetchKind)) :
    citPids (t1 ++ t2) = citPids t1 ++ citPids t2 := by
  simp [citPids]

theorem refPids_append (t1 t2 : List (String × FetchKind)) :
    refPids (t1 ++ t2) = refPids t1 ++ refPids t2 := by
  simp [refPids]

theorem citPids_new (pid : String) (c r : Prop) [Decidable c] [Decidable r] :
    citPids ((if c then [(pid, FetchKind.citation)] else [])
        ++ (if r then [(pid, FetchKind.reference)] else [])) =
      if c then [pid] else [] := by
  by_cases hc : c <;> by_cases hr : r <;> simp [hc, hr, citPids]

theorem refPids_new (pid : String) (c r : Prop) [Decidable c] [Decidable r] :
    refPids ((if c then [(pid, FetchKind.citation)] else [])
        ++ (if r then [(pid, FetchKind.reference)] else [])) =
      if r then [pid] else [] := by
  by_cases hc : c <;> by_cases hr : r <;> simp [hc, hr, refPids]

theorem enqueueLevel_inv (direction : String) (vis0 : List String)
    (h0 : vis0.Nodup) (level : List String) :
    (enqueueLevel direction level vis0).1.Nodup ∧
    (∀ x ∈ vis0, x ∈ (enqueueLevel direction level vis0).1) ∧
    (citPids (enqueueLevel direction level vis0).2).Nodup ∧
    (∀ x ∈ citPids (enqueueLevel direction level vis0).2,
      x ∈ (enqueueLevel direction level vis0).1 ∧ x ∉ vis0) ∧
    (refPids (enqueueLevel direction level vis0).2).Nodup ∧
    (∀ x ∈ refPids (enqueueLevel direction level vis0).2,
      x ∈ (enqueueLevel direction level vis0).1 ∧ x ∉ vis0) := by
  have main := foldl_preserves
    (f := fun (acc : List String × List (String × FetchKind)) pid =>
      if pid ∈ acc.1 then acc
      else
        (acc.1 ++ [pid],
          acc.2
            ++ (if direction = "citations" ∨ direction = "both"
                then [(pid, FetchKind.citation)] else [])
            ++ (if direction = "references" ∨ direction = "both"
                then [(pid, FetchKind.reference)] else [])))
    (P := fun s =>
      s.1.Nodup ∧ (∀ x ∈ vis0, x ∈ s.1) ∧
      (citPids s.2).Nodup ∧ (∀ x ∈ citPids s.2, x ∈ s.1 ∧ x ∉ vis0) ∧
      (refPids s.2).Nodup ∧ (∀ x ∈ refPids s.2, x ∈ s.1 ∧ x ∉ vis0))
    (fun s pid hs => by
      obtain ⟨h1, h2, h3, h4, h5, h6⟩ := hs
      by_cases hmem : pid ∈ s.1
      · simpa [hmem] using ⟨h1, h2, h3, h4, h5, h6⟩
      · have hpid0 : pid ∉ vis0 := fun hx => hmem (h2 pid hx)
        simp only [hmem, if_false, List.append_assoc]
        rw [citPids_append, refPids_append, citPids_new, refPids_new]
        refine ⟨nodup_snoc h1 hmem, ?_, ?_, ?_, ?_, ?_⟩
        · intro x hx
          exact List.mem_append_left _ (h2 x hx)
        · refine nodup_append_disj h3 ?_ ?_
          · split <;> simp
          · intro x hx
            split at hx
            · rw [List.mem_singleton] at hx
              subst hx
              exact fun hc => hmem (h4 x hc).1
            · cases hx
        · intro x hx
          rw [List.mem_append] at hx
          rcases hx with hx | hx
          · exact ⟨List.mem_append_left _ (h4 x hx).1, (h4 x hx).2⟩
          · split at hx
            · rw [List.mem_singleton] at hx
              subst hx
              exact ⟨List.mem_append_right _ (List.mem_singleton_self _), hpid0⟩
            · cases hx
        · refine nodup_append_disj h5 ?_ ?_
          · split <;> simp
          · intro x hx
            split at hx
            · rw [List.mem_singleton] at hx
              subst hx
              exact fun hc => hmem (h6 x hc).1
            · cases hx
        · intro x hx
          rw [List.mem_append] at hx
          rcases hx with hx | hx
          · exact ⟨List.mem_append_left _ (h6 x hx).1, (h6 x hx).2⟩
          · split at hx
            · rw [List.mem_singleton] at hx
              subst hx
              exact ⟨List.mem_append_right _ (List.mem_singleton_self _), hpid0⟩
            · cases hx)
    level (vis0, [])
    ⟨h0, fun x hx => hx, by simp [citPids], by simp [citPids], by simp [refPids],
      by simp [refPids]⟩
  exact main

theorem buildLevels_fetch_inv (o : Oracle) (dir : String) (m : Nat) :
    ∀ (d : Nat) (st : BuildState) (level : List String),
      st.visited.Nodup → st.citFetched.Nodup → st.refFetched.Nodup →
      (∀ x ∈ st.citFetched, x ∈ st.visited) →
      (∀ x ∈ st.refFetched, x ∈ st.visited) →
      (buildLevels o dir m d st level).citFetched.Nodup ∧
      (buildLevels o dir m d st level).refFetched.Nodup
  | 0, _, _, _, hc, hr, _, _ => ⟨hc, hr⟩
  | d + 1, st, level, hv, hc, hr, hcv, hrv => by
    simp only [buildLevels]
    obtain ⟨e1, e2, e3, e4, e5, e6⟩ := enqueueLevel_inv dir st.visited hv level
    refine buildLevels_fetch_inv o dir m d _ _ e1 ?_ ?_ ?_ ?_
    · exact nodup_append_disj hc e3 (fun x hx hmem => (e4 x hx).2 (hcv x hmem))
    · exact nodup_append_disj hr e5 (fun x hx hmem => (e6 x hx).2 (hrv x hmem))
    · intro x hx
      rcases List.mem_append.mp hx with hx | hx
      · exact e2 x (hcv x hx)
      · exact (e4 x hx).1
    · intro x hx
      rcases List.mem_append.mp hx with hx | hx
      · exact e2 x (hrv x hx)
      · exact (e6 x hx).1

/-- Claim C10: across a whole `GraphBuilder.build` traversal, each paper id
is fetched at most once per kind: the instrumented lists of citations-fetch
and references-fetch pivots contain no duplicates, for every upstream state,
root, depth, direction and per-level cap. -/
theorem build_fetch_once (o : Oracle) (root : String) (depth : Nat)
    (dir : String) (m : Nat) :
    (build o root depth dir m).citFetched.Nodup ∧
    (build o root depth dir m).refFetched.Nodup := by
  simp only [build]
  exact buildLevels_fetch_inv o dir m _ _ _ List.nodup_nil List.nodup_nil
    List.nodup_nil (by simp) (by simp)

/-- Claim C2 (amended): graphs built by `GraphBuilder.build` never contain a
duplicate `(citing, cited)` pair, but the comparison variant
`_build_graph_from_papers` appends edges without a duplicate check and can
emit the same pair twice. -/
theorem edges_nodup_spec :
    (∀ (o : Oracle) (root : String) (depth : Nat) (dir : String) (m : Nat),
        (build o root depth dir m).graph.edges.Nodup) ∧
    ¬ (build_graph_from_papers oDup ["A", "B"]).edges.Nodup := by
  constructor
  · intro o root depth dir m
    simp only [build]
    exact buildLevels_edges_nodup o dir m _ _ _ List.nodup_nil
  · decide

/-- Counterexample for C2 as stated: with A listing B among its references
and B listing A among its citers, `_build_graph_from_papers` records the arc
A→B twice. -/
theorem from_papers_duplicate_edge :
    (build_graph_from_papers oDup ["A", "B"]).edges = [("A", "B"), ("A", "B")] ∧
    ¬ (build_graph_from_papers oDup ["A", "B"]).edges.Nodup := by
  decide

theorem setPaper_keys_mem (ps : List (String × Paper)) (pid : String) (p : Paper)
    (a : String) (h : a ∈ ps.map Prod.fst) :
    a ∈ (setPaper ps pid p).map Prod.fst := by
  simp only [setPaper]
  split
  · rw [List.map_map]
    have heq : ps.map (Prod.fst ∘ fun kv => if kv.1 = pid then (pid, p) else kv) =
        ps.map Prod.fst := by
      apply List.map_congr_left
      intro kv _
      by_cases hkv : kv.1 = pid
      · simp [hkv]
      · simp [hkv]
    rw [heq]
    exact h
  · rw [List.map_append]
    exact List.mem_append_left _ h

theorem fromPapersStep_keys_mem (o : Oracle) (a : String)
    (s : List (String × Paper) × List (String × String)) (pid : String)
    (h : a ∈ s.1.map Prod.fst) : a ∈ (fromPapersStep o s pid).1.map Prod.fst := by
  simp only [fromPapersStep]
  split
  · exact h
  · refine foldl_preserves (P := fun (s : List (String × Paper) × List (String × String)) => a ∈ s.1.map Prod.fst) _ ?_ _ _
      (foldl_preserves (P := fun (s : List (String × Paper) × List (String × String)) => a ∈ s.1.map Prod.fst) _ ?_ _ _
        (setPaper_keys_mem _ _ _ _ h))
    · intro st cit hst
      dsimp only
      split
      · exact hst
      · rw [List.map_append]
        exact List.mem_append_left _ hst
    · intro st ref hst
      dsimp only
      split
      · exact hst
      · rw [List.map_append]
        exact List.mem_append_left _ hst

theorem from_papers_root_mem (o : Oracle) (x : String) (rest : List String)
    (p : Paper) (h : o.getPaper x = some p) :
    (build_graph_from_papers o (x :: rest)).root_paper_id ∈
      (build_graph_from_papers o (x :: rest)).papers.map Prod.fst := by
  have hroot : (build_graph_from_papers o (x :: rest)).root_paper_id = x := rfl
  rw [hroot]
  simp only [build_graph_from_papers]
  rw [List.foldl_cons]
  refine foldl_preserves (fromPapersStep o)
    (fun s pid hs => fromPapersStep_keys_mem o x s pid hs) rest _ ?_
  simp only [fromPapersStep, h]
  refine foldl_preserves (P := fun (s : List (String × Paper) × List (String × String)) => x ∈ s.1.map Prod.fst) _ ?_ _ _
    (foldl_preserves (P := fun (s : List (String × Paper) × List (String × String)) => x ∈ s.1.map Prod.fst) _ ?_ _ _ ?_)
  · intro st cit hst
    dsimp only
    split
    · exact hst
    · rw [List.map_append]
      exact List.mem_append_left _ hst
  · intro st ref hst
    dsimp only
    split
    · exact hst
    · rw [List.map_append]
      exact List.mem_append_left _ hst
  · simp [setPaper]

/-- Claim C3 (amended): for `GraphBuilder.build` the root id is always a key
of `papers` and maps to the fetched paper or, on NotFound, to the placeholder
with title "Unknown"; for `_build_graph_from_papers` the root is a key
whenever the first requested id resolves upstream (and can be absent when it
does not). -/
theorem root_in_papers_spec :
    (∀ (o : Oracle) (root : String) (depth : Nat) (dir : String) (m : Nat),
        root ∈ (build o root depth dir m).graph.papers.map Prod.fst ∧
        (build o root depth dir m).graph.papers.find? (fun kv => kv.1 = root) =
          some (root, (o.getPaper root).getD { paper_id := root, title := "Unknown" })) ∧
    (∀ (o : Oracle) (x : String) (rest : List String) (p : Paper),
        o.getPaper x = some p →
        (build_graph_from_papers o (x :: rest)).root_paper_id ∈
          (build_graph_from_papers o (x :: rest)).papers.map Prod.fst) := by
  constructor
  · intro o root depth dir m
    simp only [build]
    obtain ⟨rest, hrest⟩ := buildLevels_head o dir m
      (root, (o.getPaper root).getD { paper_id := root, title := "Unknown" })
      (min (max depth 1) 3)
      { papers := [(root, (o.getPaper root).getD { paper_id := root, title := "Unknown" })],
        edges := [], visited := [], citFetched := [], refFetched := [] }
      [root] ⟨[], rfl⟩
    refine ⟨?_, ?_⟩
    · rw [hrest]
      simp
    · rw [hrest]
      simp [List.find?]
  · exact fun o x rest p h => from_papers_root_mem o x rest p h

/-- Counterexample for C3 as stated: when the upstream reports every paper
as NotFound, `_build_graph_from_papers` keeps no placeholder and the root id
is not a key of the graph's papers. -/
theorem from_papers_missing_root :
    (build_graph_from_papers oEmpty ["A", "B"]).papers = [] ∧
    (build_graph_from_papers oEmpty ["A", "B"]).root_paper_id ∉
      (build_graph_from_papers oEmpty ["A", "B"]).papers.map Prod.fst := by
  decide

/-- Witness for C3 (amended) at concrete upstream states. -/
theorem root_in_papers_spec_witness :
    "A" ∈ (build oEmpty "A" 2 "both" 25).graph.papers.map Prod.fst ∧
    (build_graph_from_papers oDup ["A", "B"]).root_paper_id ∈
      (build_graph_from_papers oDup ["A", "B"]).papers.map Prod.fst :=
  ⟨(root_in_papers_spec.1 oEmpty "A" 2 "both" 25).1,
    root_in_papers_spec.2 oDup "A" ["B"] pA (by decide)⟩

end CGE
